import Mathlib

/-!
Verification of the jnkn impact-analysis engine against its specification.

The development shallowly embeds the Python source: parsers and extractors
become Lean functions over decoded text (lists of characters), regex scanning
becomes explicit character-list matchers with the same first-match /
non-overlapping semantics, and the mutable per-file extraction state
(seen-id sets, parser block state) becomes explicit state passing.
Components of the repository that are referenced but whose defining module is
absent (the core graph, the extraction-context factories) are modelled from
the specification and marked as such in their doc comments.
-/

namespace Jnkn

/-! ## Basic character and string helpers -/

/-- Word characters in the sense of the regex class [A-Za-z0-9_]. -/
def isWordChar (c : Char) : Bool :=
  (('a' ≤ c && c ≤ 'z') || ('A' ≤ c && c ≤ 'Z') || ('0' ≤ c && c ≤ '9') || c = '_')

/-- Characters of the regex class [a-zA-Z0-9_\-] used by Terraform reference names. -/
def isRefChar (c : Char) : Bool :=
  (('a' ≤ c && c ≤ 'z') || ('A' ≤ c && c ≤ 'Z') || ('0' ≤ c && c ≤ '9') || c = '_' || c = '-')

/-- Whitespace for the regex class \s (space, tab, newline, carriage return, form feed, vertical tab). -/
def isSpaceChar (c : Char) : Bool :=
  (c = ' ' || c = '\t' || c = '\n' || c = '\r' || c = '\x0b' || c = '\x0c')

/-- ASCII lowercase of a character, as Python str.lower acts on ASCII. -/
def lowerChar (c : Char) : Char :=
  if 'A' ≤ c && c ≤ 'Z' then Char.ofNat (c.toNat + 32) else c

/-- Lowercase every character of a list. -/
def lowerChars (cs : List Char) : List Char := cs.map lowerChar

/-- Does list `p` occur at the head of list `s`? -/
def listStarts : List Char → List Char → Bool
  | [], _ => true
  | _ :: _, [] => false
  | p :: ps, s :: ss => p = s && listStarts ps ss

/-- Does `p` occur anywhere inside `s` (contiguously)? -/
def listHasSub (p : List Char) : List Char → Bool
  | [] => listStarts p []
  | c :: rest => listStarts p (c :: rest) || listHasSub p rest

/-- Does string `s` start with string `p`? -/
def strStarts (s p : String) : Bool := listStarts p.data s.data

/-- Does string `s` contain string `p` as a substring? -/
def strHasSub (s p : String) : Bool := listHasSub p.data s.data

/-- Lowercase a string (ASCII, as Python str.lower on ASCII input). -/
def strLower (s : String) : String := String.mk (lowerChars s.data)

/-- Split a character list at every character satisfying `sep`, keeping empty
fragments, as Python re.split with a single-character class does. -/
def splitOnPred (sep : Char → Bool) : List Char → List (List Char)
  | [] => [[]]
  | c :: rest =>
    let tail := splitOnPred sep rest
    if sep c then
      [] :: tail
    else
      match tail with
      | [] => [[c]]
      | t :: ts => (c :: t) :: ts

/-- Take the longest leading run of characters satisfying `p`; return it and the rest. -/
def takeRun (p : Char → Bool) : List Char → List Char × List Char
  | [] => ([], [])
  | c :: rest =>
    if p c then
      let (run, rem) := takeRun p rest
      (c :: run, rem)
    else ([], c :: rest)

/-- Strip leading and trailing whitespace, as Python str.strip. -/
def stripChars (cs : List Char) : List Char :=
  ((cs.dropWhile isSpaceChar).reverse.dropWhile isSpaceChar).reverse

/-- Split a text into lines at newline characters, as Python str.splitlines on
text containing only \n line breaks (the decoded file contents). -/
def splitLinesChars (cs : List Char) : List (List Char) :=
  if cs = [] then [] else splitOnPred (fun c => c = '\n') cs

/-- The final path component, as Python Path.name. -/
def baseName (path : String) : String :=
  match (splitOnPred (fun c => c = '/') path.data).getLast? with
  | some cs => String.mk cs
  | none => path

/-- Count occurrences of a character, as Python str.count for one character. -/
def countChar (c : Char) (cs : List Char) : Nat := (cs.filter (fun d => d = c)).length

/-! ## Decoded Python JSON values

The Terraform plan parser manipulates the result of json.loads dynamically:
a membership test, a subscript, an iteration and attribute-style .get calls
whose behaviour — including the exceptions they raise — depends on the
runtime type of the decoded value. The values and those operations are
embedded below; fallible operations return Except over the exception kind. -/

/-- The Python exceptions the embedded operations can raise. -/
inductive PyError
  | typeError
  | keyError
  | attributeError
  | unicodeDecodeError
  deriving DecidableEq, Repr

/-- A value decoded by json.loads: null, booleans, integers, floats,
strings, arrays and objects (objects carry their key/value pairs in order;
json.loads keeps one entry per key). A JSON float is carried as the repr
string of the Python float it decodes to — binary floating point itself is
outside the embedding — which is all the parser ever uses of it. -/
inductive PyJson
  | null
  | bool (b : Bool)
  | int (n : Int)
  | float (fr : String)
  | str (s : String)
  | arr (xs : List PyJson)
  | obj (kvs : List (String × PyJson))
  deriving Repr

mutual

/-- Decidable equality for decoded JSON values (the automatic derivation
does not handle the nested lists). -/
def PyJson.decEq : (a b : PyJson) → Decidable (a = b)
  | .null, .null => isTrue rfl
  | .bool a, .bool b =>
    if h : a = b then isTrue (by rw [h]) else isFalse (fun hc => h (by injection hc))
  | .int a, .int b =>
    if h : a = b then isTrue (by rw [h]) else isFalse (fun hc => h (by injection hc))
  | .float a, .float b =>
    if h : a = b then isTrue (by rw [h]) else isFalse (fun hc => h (by injection hc))
  | .str a, .str b =>
    if h : a = b then isTrue (by rw [h]) else isFalse (fun hc => h (by injection hc))
  | .arr xs, .arr ys =>
    match PyJson.decEqList xs ys with
    | isTrue h => isTrue (by rw [h])
    | isFalse h => isFalse (fun hc => h (by injection hc))
  | .obj xs, .obj ys =>
    match PyJson.decEqPairs xs ys with
    | isTrue h => isTrue (by rw [h])
    | isFalse h => isFalse (fun hc => h (by injection hc))
  | .null, .bool _ => isFalse (by simp)
  | .null, .int _ => isFalse (by simp)
  | .null, .float _ => isFalse (by simp)
  | .null, .str _ => isFalse (by simp)
  | .null, .arr _ => isFalse (by simp)
  | .null, .obj _ => isFalse (by simp)
  | .bool _, .null => isFalse (by simp)
  | .bool _, .int _ => isFalse (by simp)
  | .bool _, .float _ => isFalse (by simp)
  | .bool _, .str _ => isFalse (by simp)
  | .bool _, .arr _ => isFalse (by simp)
  | .bool _, .obj _ => isFalse (by simp)
  | .int _, .null => isFalse (by simp)
  | .int _, .bool _ => isFalse (by simp)
  | .int _, .float _ => isFalse (by simp)
  | .int _, .str _ => isFalse (by simp)
  | .int _, .arr _ => isFalse (by simp)
  | .int _, .obj _ => isFalse (by simp)
  | .float _, .null => isFalse (by simp)
  | .float _, .bool _ => isFalse (by simp)
  | .float _, .int _ => isFalse (by simp)
  | .float _, .str _ => isFalse (by simp)
  | .float _, .arr _ => isFalse (by simp)
  | .float _, .obj _ => isFalse (by simp)
  | .str _, .null => isFalse (by simp)
  | .str _, .bool _ => isFalse (by simp)
  | .str _, .int _ => isFalse (by simp)
  | .str _, .float _ => isFalse (by simp)
  | .str _, .arr _ => isFalse (by simp)
  | .str _, .obj _ => isFalse (by simp)
  | .arr _, .null => isFalse (by simp)
  | .arr _, .bool _ => isFalse (by simp)
  | .arr _, .int _ => isFalse (by simp)
  | .arr _, .float _ => isFalse (by simp)
  | .arr _, .str _ => isFalse (by simp)
  | .arr _, .obj _ => isFalse (by simp)
  | .obj _, .null => isFalse (by simp)
  | .obj _, .bool _ => isFalse (by simp)
  | .obj _, .int _ => isFalse (by simp)
  | .obj _, .float _ => isFalse (by simp)
  | .obj _, .str _ => isFalse (by simp)
  | .obj _, .arr _ => isFalse (by simp)

/-- Decidable equality for lists of JSON values. -/
def PyJson.decEqList : (xs ys : List PyJson) → Decidable (xs = ys)
  | [], [] => isTrue rfl
  | [], _ :: _ => isFalse (by simp)
  | _ :: _, [] => isFalse (by simp)
  | x :: xs, y :: ys =>
    match PyJson.decEq x y with
    | isFalse h1 => isFalse (fun hc => h1 (by injection hc))
    | isTrue h1 =>
      match PyJson.decEqList xs ys with
      | isTrue h2 => isTrue (by rw [h1, h2])
      | isFalse h2 => isFalse (fun hc => h2 (by injection hc))

/-- Decidable equality for key/value pair lists of JSON objects. -/
def PyJson.decEqPairs : (xs ys : List (String × PyJson)) → Decidable (xs = ys)
  | [], [] => isTrue rfl
  | [], _ :: _ => isFalse (by simp)
  | _ :: _, [] => isFalse (by simp)
  | (k1, v1) :: xs, (k2, v2) :: ys =>
    if hk : k1 = k2 then
      match PyJson.decEq v1 v2 with
      | isFalse h1 =>
        isFalse (fun hc => by injection hc with h h2; exact h1 (congrArg Prod.snd h))
      | isTrue h1 =>
        match PyJson.decEqPairs xs ys with
        | isTrue h2 => isTrue (by rw [hk, h1, h2])
        | isFalse h2 => isFalse (fun hc => h2 (by injection hc))
    else isFalse (fun hc => by injection hc with h h2; exact hk (congrArg Prod.fst h))

end

instance : DecidableEq PyJson := PyJson.decEq

/-- Python truthiness of a decoded JSON value: None, False, zero, the empty
string, the empty list and the empty dict are falsy. A zero float decodes to
repr 0.0 or -0.0. -/
def pyJsonTruthy : PyJson → Bool
  | .null => false
  | .bool b => b
  | .int n => n ≠ 0
  | .float fr => !(fr = "0.0" || fr = "-0.0")
  | .str s => s ≠ ""
  | .arr xs => xs ≠ []
  | .obj kvs => kvs ≠ []

/-- Python truthiness of a dict.get result: an absent key gives None, which
is falsy. -/
def pyOptTruthy : Option PyJson → Bool
  | none => false
  | some v => pyJsonTruthy v

/-- Python `key in value` for a string key: key containment for a dict,
substring containment for a string, element equality for a list, and a
TypeError for every non-container (None, booleans, numbers). -/
def pyContainsStr (key : String) : PyJson → Except PyError Bool
  | .obj kvs => .ok (kvs.any (fun kv => kv.1 = key))
  | .str s => .ok (strHasSub s key)
  | .arr xs => .ok (xs.any (fun x => match x with | .str s => s = key | _ => false))
  | _ => .error .typeError

/-- Python `value[key]` for a string key: a dict lookup (KeyError when
absent); strings and lists take integer indices only and every other value
is not subscriptable, a TypeError either way. -/
def pySubscript (key : String) : PyJson → Except PyError PyJson
  | .obj kvs =>
    match kvs.find? (fun kv => kv.1 = key) with
    | some kv => .ok kv.2
    | none => .error .keyError
  | _ => .error .typeError

/-- Python iteration over a decoded value: the elements of a list, the
one-character strings of a string, the keys of a dict, and a TypeError for
every non-iterable. -/
def pyIterate : PyJson → Except PyError (List PyJson)
  | .arr xs => .ok xs
  | .str s => .ok (s.data.map (fun c => PyJson.str (String.mk [c])))
  | .obj kvs => .ok (kvs.map (fun kv => PyJson.str kv.1))
  | _ => .error .typeError

/-- Python `value.get(key)`: a dict lookup returning None when absent; every
non-dict value has no such attribute, an AttributeError. -/
def pyGet (key : String) : PyJson → Except PyError (Option PyJson)
  | .obj kvs => .ok ((kvs.find? (fun kv => kv.1 = key)).map (fun kv => kv.2))
  | _ => .error .attributeError

/-- Python `value.get(key, default)`. -/
def pyGetD (key : String) (dflt : PyJson) (v : PyJson) : Except PyError PyJson :=
  match pyGet key v with
  | .error e => .error e
  | .ok o => .ok (o.getD dflt)

mutual

/-- Python repr of a decoded JSON value, as list and dict stringification
uses it; a float's repr string is carried by its constructor. -/
def pyRepr : PyJson → String
  | .null => "None"
  | .bool true => "True"
  | .bool false => "False"
  | .int n => toString n
  | .float fr => fr
  | .str s => "\x27" ++ s ++ "\x27"
  | .arr xs => "[" ++ pyReprSeq xs ++ "]"
  | .obj kvs => "\x7b" ++ pyReprPairs kvs ++ "\x7d"

/-- Comma-separated reprs of list elements. -/
def pyReprSeq : List PyJson → String
  | [] => ""
  | [x] => pyRepr x
  | x :: y :: rest => pyRepr x ++ ", " ++ pyReprSeq (y :: rest)

/-- Comma-separated key: value reprs of dict entries. -/
def pyReprPairs : List (String × PyJson) → String
  | [] => ""
  | [kv] => "\x27" ++ kv.1 ++ "\x27: " ++ pyRepr kv.2
  | kv :: kv2 :: rest =>
    "\x27" ++ kv.1 ++ "\x27: " ++ pyRepr kv.2 ++ ", " ++ pyReprPairs (kv2 :: rest)

end

/-- Python str() of a decoded JSON value, as an f-string interpolation calls
it: a string is itself, everything else prints as its repr. -/
def pyStr : PyJson → String
  | .str s => s
  | v => pyRepr v

/-! ## Core data model

The module jnkn.core.types is imported throughout the repository but its
source is not present; the shapes below are modelled from the
specification (section 3) and from every construction site in the parsers. -/

/-- Modelled from the spec: the closed set of node types (section 3.1). -/
inductive NodeType
  | code_file
  | code_entity
  | env_var
  | infra_resource
  | config_key
  | data_asset
  | job
  | unknown
  deriving DecidableEq, Repr

/-- Modelled from the spec: the closed set of edge types (section 3.2). -/
inductive RelationshipType
  | imports
  | reads
  | writes
  | provides
  | provisions
  | contains
  | depends_on
  deriving DecidableEq, Repr

/-- JSON-like metadata values attached to nodes and edges. -/
inductive MetaValue
  | str (s : String)
  | bool (b : Bool)
  | int (n : Int)
  | num (q : ℚ)
  | null
  | strList (xs : List String)
  | optStrList (xs : List (Option String))
  | pairs (xs : List (String × String))
  | json (j : PyJson)
  deriving DecidableEq, Repr

/-- Metadata is a finite string-keyed map, kept as an association list in
insertion order as Python dicts are. -/
abbrev Metadata := List (String × MetaValue)

/-- Look up a metadata key. -/
def Metadata.lookup (m : Metadata) (k : String) : Option MetaValue :=
  match m with
  | [] => none
  | (k', v) :: rest => if k' = k then some v else Metadata.lookup rest k

/-- Modelled from the spec: a graph node (section 3.1), with the optional
fields the parsers populate. -/
structure Node where
  id : String
  name : String
  type : NodeType
  path : Option String := none
  language : Option String := none
  file_hash : Option String := none
  tokens : List String := []
  metadata : Metadata := []
  deriving DecidableEq, Repr

/-- Modelled from the spec: a directed labeled edge (section 3.2); confidence
defaults to 1.0 (observed directly by a parser). -/
structure Edge where
  source_id : String
  target_id : String
  type : RelationshipType
  confidence : ℚ := 1
  metadata : Metadata := []
  deriving DecidableEq, Repr

/-- A parser emission: parsers yield a lazy sequence of Node | Edge values. -/
inductive Item
  | node (n : Node)
  | edge (e : Edge)
  deriving DecidableEq, Repr

/-- Is this item a file-level code_file node? -/
def Item.isCodeFile : Item → Bool
  | .node n => n.type = NodeType.code_file
  | .edge _ => false

/-- Is this item a node with the given id, or an edge pointing at it? An
extractor "emits a node or edge for" an environment variable exactly when one
of its items satisfies this for the variable's env: id. -/
def Item.isForId (target : String) : Item → Bool
  | .node n => n.id = target
  | .edge e => e.target_id = target

/-! ## Tokenization (C5)

Translation of JobExtractor._tokenize / DatasetExtractor._tokenize
(jobs.py line 70, datasets.py line 107):
return [t for t in re.split(r"[_\-./]", name.lower()) if len(t) >= 2] -/

/-- The separator class [_\-./] of the tokenizer. -/
def isTokenSep (c : Char) : Bool := (c = '_' || c = '-' || c = '.' || c = '/')

/-- The fragments of a name produced by re.split on the separator class,
before any filtering (empty fragments included, as re.split keeps them). -/
def tokenFragments (name : String) : List String :=
  (splitOnPred isTokenSep (lowerChars name.data)).map String.mk

/-- JobExtractor._tokenize: lowercase, split on [_\-./], keep fragments of
length at least 2. -/
def tokenize (name : String) : List String :=
  (tokenFragments name).filter (fun t => 2 ≤ t.length)

/-! ## Character-list regex matchers for the Terraform parser

Each Python regex of TerraformParser is rendered as a deterministic
character-list matcher with the same semantics: a quoted capture [^"]+ is the
maximal nonempty run of non-quote characters followed by the closing quote,
and re.search tries the pattern at every successive start position. -/

/-- String concatenation through the underlying character lists. -/
def strCat (a b : String) : String := String.mk (a.data ++ b.data)

/-- Match a leading `"([^"]+)"` group: an opening quote, a nonempty run of
non-quote characters, a closing quote. Returns the capture and the rest. -/
def matchQuoted : List Char → Option (List Char × List Char)
  | '"' :: rest =>
    let (cap, rem) := takeRun (fun c => c != '"') rest
    match rem with
    | '"' :: rest2 => if cap = [] then none else some (cap, rest2)
    | _ => none
  | _ => none

/-- Match a leading `\s+`: a nonempty run of whitespace. Returns the rest. -/
def matchSpaces (cs : List Char) : Option (List Char) :=
  let (sp, rem) := takeRun isSpaceChar cs
  if sp = [] then none else some rem

/-- Match a literal keyword at the head of the list. Returns the rest. -/
def matchLit (kw : List Char) (cs : List Char) : Option (List Char) :=
  if listStarts kw cs then some (cs.drop kw.length) else none

/-- Match `kw\s+"([^"]+)"\s+"([^"]+)"` at the current position
(RESOURCE_PATTERN with kw = resource, DATA_PATTERN with kw = data). -/
def matchTwoQuoted (kw : List Char) (cs : List Char) : Option (String × String) := do
  let r1 ← matchLit kw cs
  let r2 ← matchSpaces r1
  let (c1, r3) ← matchQuoted r2
  let r4 ← matchSpaces r3
  let (c2, _) ← matchQuoted r4
  pure (String.mk c1, String.mk c2)

/-- Match `output\s+"([^"]+)"\s+\{` at the current position (OUTPUT_PATTERN). -/
def matchOutputAt (cs : List Char) : Option String := do
  let r1 ← matchLit "output".data cs
  let r2 ← matchSpaces r1
  let (c1, r3) ← matchQuoted r2
  let r4 ← matchSpaces r3
  match r4 with
  | '{' :: _ => pure (String.mk c1)
  | _ => none

/-- Match `locals\s+\{` at the current position (LOCALS_PATTERN). -/
def matchLocalsAt (cs : List Char) : Option Unit := do
  let r1 ← matchLit "locals".data cs
  let r2 ← matchSpaces r1
  match r2 with
  | '{' :: _ => pure ()
  | _ => none

/-- Run a positional matcher at every start position in turn, as re.search. -/
def searchAt {α : Type} (m : List Char → Option α) : List Char → Option α
  | [] => m []
  | c :: rest =>
    match m (c :: rest) with
    | some r => some r
    | none => searchAt m rest

/-- Match the anchored local-definition pattern `([a-zA-Z0-9_\-]+)\s*=` used
with re.match on the stripped line inside a locals block. -/
def matchLocalDef (cs : List Char) : Option String :=
  let (nm, r1) := takeRun isRefChar cs
  if nm = [] then none
  else
    let (_, r2) := takeRun isSpaceChar r1
    match r2 with
    | '=' :: _ => some (String.mk nm)
    | _ => none

/-- Everything after the first `=`, as Python str.split with maxsplit 1. -/
def afterFirstEq (cs : List Char) : List Char :=
  (cs.dropWhile (fun c => c != '=')).drop 1

/-- A reference captured by REF_PATTERN: keyword, name, optional attribute. -/
structure TfRef where
  refType : String
  refName : String
  refAttr : Option String
  deriving DecidableEq, Repr

/-- Match REF_PATTERN `\b(var|local|data|module)\.([a-zA-Z0-9_\-]+)(?:\.([a-zA-Z0-9_\-]+))?`
at the current position (the word boundary is checked by the caller). Returns
the reference, the rest of the input, and whether the last consumed character
is a word character (for the next boundary check). -/
def matchRefAt (cs : List Char) : Option (TfRef × List Char × Bool) :=
  let tryKw (kw : String) : Option (TfRef × List Char × Bool) := do
    let r1 ← matchLit kw.data cs
    match r1 with
    | '.' :: r2 =>
      let (nm, r3) := takeRun isRefChar r2
      if nm = [] then none
      else
        match r3 with
        | '.' :: r4 =>
          let (at_, r5) := takeRun isRefChar r4
          if at_ = [] then
            pure (⟨kw, String.mk nm, none⟩, r3, isWordChar (nm.getLastD 'x'))
          else
            pure (⟨kw, String.mk nm, some (String.mk at_)⟩, r5, isWordChar (at_.getLastD 'x'))
        | _ => pure (⟨kw, String.mk nm, none⟩, r3, isWordChar (nm.getLastD 'x'))
    | _ => none
  match tryKw "var" with
  | some r => some r
  | none =>
  match tryKw "local" with
  | some r => some r
  | none =>
  match tryKw "data" with
  | some r => some r
  | none => tryKw "module"

/-- Scan for all non-overlapping REF_PATTERN matches, left to right, tracking
the word-boundary state, as re.finditer. The fuel starts at the input length
and bounds the recursion; every step consumes at least one character. -/
def findRefsAux : Nat → Bool → List Char → List TfRef
  | 0, _, _ => []
  | _ + 1, _, [] => []
  | f + 1, prevWord, c :: rest =>
    if prevWord then
      findRefsAux f (isWordChar c) rest
    else
      match matchRefAt (c :: rest) with
      | some (r, rem, lastWord) => r :: findRefsAux f lastWord rem
      | none => findRefsAux f (isWordChar c) rest

/-- All REF_PATTERN matches in a text, in order. -/
def findRefs (cs : List Char) : List TfRef :=
  findRefsAux cs.length false cs

/-! ## Terraform static parser (TerraformParser.parse)

Line-by-line translation of TerraformParser.parse and
TerraformParser._extract_references (terraform/parser.py lines 76-246).
The decode step uses errors="ignore" and therefore never fails, so the
parser receives the decoded text directly. -/

/-- TerraformParser._extract_references: turn each reference found in a text
span into a reads edge from `sourceId`, skipping var references and data
references without an attribute. -/
def tfRefEdges (sourceId : String) (text : List Char) (lineNum : Nat) : List Item :=
  (findRefs text).filterMap fun r =>
    let target? : Option String :=
      if r.refType = "var" then none
      else if r.refType = "local" then some (strCat "infra:local." r.refName)
      else if r.refType = "data" then
        match r.refAttr with
        | some a => some (strCat "infra:data." (strCat r.refName (strCat "." a)))
        | none => none
      else if r.refType = "module" then some (strCat "infra:module." r.refName)
      else none
    target?.map fun t =>
      Item.edge { source_id := sourceId, target_id := t, type := .reads,
                  metadata := [("line", .int lineNum)] }

/-- Mutable loop state of TerraformParser.parse: the current block id and
type, and the brace depth. -/
structure TfState where
  blockId : Option String
  blockType : Option String
  depth : Int
  deriving DecidableEq, Repr

/-- Items emitted for one line of a .tf file, plus the updated state; direct
translation of the body of the for loop in TerraformParser.parse. -/
def tfProcessLine (fileId : String) (s : TfState) (lineNum : Nat) (line : List Char) :
    List Item × TfState :=
  let stripped := stripChars line
  if listStarts "#".data stripped || listStarts "//".data stripped then ([], s)
  else
    match searchAt (matchTwoQuoted "resource".data) line with
    | some (resType, resName) =>
      let nodeId := strCat "infra:" (strCat resType (strCat "." resName))
      ([ .node { id := nodeId, name := resName, type := .infra_resource,
                 metadata := [("terraform_type", .str resType), ("line", .int lineNum)] },
         .edge { source_id := fileId, target_id := nodeId, type := .provisions } ],
       ⟨some nodeId, some "resource", 1⟩)
    | none =>
    match searchAt (matchTwoQuoted "data".data) line with
    | some (dataType, dataName) =>
      let nodeId := strCat "infra:data." (strCat dataType (strCat "." dataName))
      ([ .node { id := nodeId, name := dataName, type := .infra_resource,
                 metadata := [("terraform_type", .str dataType), ("is_data", .bool true),
                              ("line", .int lineNum)] },
         .edge { source_id := fileId, target_id := nodeId, type := .provisions } ],
       ⟨some nodeId, some "data", 1⟩)
    | none =>
    match searchAt matchOutputAt line with
    | some outName =>
      let nodeId := strCat "infra:output:" outName
      ([ .node { id := nodeId, name := outName, type := .config_key,
                 metadata := [("line", .int lineNum)] },
         .edge { source_id := fileId, target_id := nodeId, type := .provisions } ],
       ⟨some nodeId, some "output", 1⟩)
    | none =>
    if (searchAt matchLocalsAt line).isSome then
      ([], ⟨some "locals_block", some "locals", 1⟩)
    else
      let depth' := s.depth + (countChar '{' line : Int) - (countChar '}' line : Int)
      if depth' ≤ 0 ∧ s.blockId.isSome then ([], ⟨none, none, 0⟩)
      else
        let s' : TfState := ⟨s.blockId, s.blockType, depth'⟩
        match s.blockId with
        | none => ([], s')
        | some bid =>
          if s.blockType = some "locals" then
            match matchLocalDef stripped with
            | some localName =>
              let localId := strCat "infra:local." localName
              ([ .node { id := localId, name := localName, type := .config_key,
                         metadata := [("is_local", .bool true), ("line", .int lineNum)] },
                 .edge { source_id := fileId, target_id := localId, type := .provisions } ]
                ++ tfRefEdges localId (afterFirstEq stripped) lineNum, s')
            | none => ([], s')
          else if s.blockType = some "resource" || s.blockType = some "data"
              || s.blockType = some "output" then
            (tfRefEdges bid stripped lineNum, s')
          else ([], s')

/-- Process the numbered lines of a .tf file in order, threading the state. -/
def tfLinesGo (fileId : String) : TfState → Nat → List (List Char) → List Item
  | _, _, [] => []
  | s, ln, line :: rest =>
    let (items, s') := tfProcessLine fileId s ln line
    items ++ tfLinesGo fileId s' (ln + 1) rest

/-- The file-level node TerraformParser.parse emits first. -/
def tfFileNode (filePath : String) : Item :=
  .node { id := strCat "file://" filePath, name := baseName filePath, type := .code_file,
          path := some filePath, metadata := [("language", .str "hcl")] }

/-- TerraformParser.parse on a .tf file: the file node first, then the items
of each line in order. -/
def terraformParse (filePath : String) (text : List Char) : List Item :=
  tfFileNode filePath ::
    tfLinesGo (strCat "file://" filePath) ⟨none, none, 0⟩ 1 (splitLinesChars text)

/-! ## Terraform plan parser (TerraformPlanParser.parse)

Translation of TerraformPlanParser.parse (terraform/parser.py lines 270-302).
The parser runs json.loads on the raw bytes and catches only
json.JSONDecodeError — bytes that do not decode as UTF-8 raise an uncaught
UnicodeDecodeError from inside json.loads. On decoded JSON it evaluates
"resource_changes" not in plan, subscripts, iterates, and calls .get on the
changes, with the type-dependent Python semantics — including the raised
TypeError and AttributeError — embedded through the PyJson operations
above. -/

/-- The plan parser's input: the outcome of handing the raw bytes to
json.loads — undecodable bytes (UnicodeDecodeError, uncaught), text that is
not valid JSON (JSONDecodeError, caught), or the decoded value. -/
inductive PlanBytes
  | undecodableBytes
  | invalidJson
  | decoded (plan : PyJson)
  deriving DecidableEq, Repr

/-- Python truthiness of an optional string: None and the empty string are
falsy. -/
def pyTruthy : Option String → Bool
  | none => false
  | some s => s ≠ ""

/-- The loop over plan["resource_changes"]: per change, read type, name and
address through .get (an AttributeError for a non-dict change), skip changes
whose type or name is falsy, and emit the infra node — its id interpolating
str() of the values — carrying the address and the change actions. An
exception part-way discards the whole output, as the raised exception
does. -/
def planChangeItems : List PyJson → Except PyError (List Item)
  | [] => .ok []
  | change :: rest =>
    match pyGet "type" change with
    | .error e => .error e
    | .ok resType =>
      match pyGet "name" change with
      | .error e => .error e
      | .ok resName =>
        match pyGet "address" change with
        | .error e => .error e
        | .ok address =>
          if pyOptTruthy resType && pyOptTruthy resName then
            match pyGetD "change" (.obj []) change with
            | .error e => .error e
            | .ok chg =>
              match pyGetD "actions" (.arr []) chg with
              | .error e => .error e
              | .ok actions =>
                match planChangeItems rest with
                | .error e => .error e
                | .ok items =>
                  let t := pyStr (resType.getD .null)
                  let n := pyStr (resName.getD .null)
                  .ok (Item.node
                    { id := strCat "infra:" (strCat t (strCat "." n)), name := n,
                      type := .infra_resource,
                      metadata := [("terraform_address", .json (address.getD .null)),
                                   ("change_actions", .json actions)] } :: items)
          else planChangeItems rest

/-- TerraformPlanParser.parse: an empty stream on a JSONDecodeError; then
"resource_changes" not in plan (a TypeError on a non-container top level)
gates an early empty return; then plan["resource_changes"] (a TypeError on a
string or list top level) is iterated (a TypeError when not iterable) into
the change loop. No file-level node is ever emitted on any path. -/
def terraformPlanParse : PlanBytes → Except PyError (List Item)
  | .undecodableBytes => .error .unicodeDecodeError
  | .invalidJson => .ok []
  | .decoded plan =>
    match pyContainsStr "resource_changes" plan with
    | .error e => .error e
    | .ok contained =>
      if !contained then .ok []
      else
        match pySubscript "resource_changes" plan with
        | .error e => .error e
        | .ok rc =>
          match pyIterate rc with
          | .error e => .error e
          | .ok changes => planChangeItems changes

/-! ## Extraction context

The ExtractionContext class lives in jnkn.parsing.base, whose source is not
present; every extractor receives one per file. -/

/-- Modelled from the spec: the shared per-file extraction context — the file
path, the file id, and a mutable seen_ids set so higher-priority extractors
suppress duplicates in lower-priority ones; a fresh context (empty seen_ids)
is created for each file, so deduplication is per-context, not global. -/
structure ExtractionContext where
  file_path : String
  file_id : String
  seen_ids : List String
  deriving DecidableEq, Repr

/-- Modelled from the spec: the fresh context the pipeline creates for one
file; the file id is the file:// form of the path and seen_ids starts empty. -/
def newContext (path : String) : ExtractionContext :=
  ⟨path, strCat "file://" path, []⟩

/-- Modelled from the spec: ctx.mark_seen — record a key in seen_ids,
reporting whether it was new; callers skip keys that were already seen. -/
def markSeen (ctx : ExtractionContext) (key : String) : Bool × ExtractionContext :=
  if ctx.seen_ids.contains key then (false, ctx)
  else (true, { ctx with seen_ids := ctx.seen_ids ++ [key] })

/-- Modelled from the spec: ctx.create_env_var_node — an env_var node with
`path` guaranteed to be set to the context's file path. -/
def createEnvVarNode (ctx : ExtractionContext) (name : String) (line : Nat)
    (source : String) (extra : Metadata) : Node :=
  { id := strCat "env:" name, name := name, type := .env_var,
    path := some ctx.file_path,
    metadata := [("line", .int line), ("source", .str source)] ++ extra }

/-- Modelled from the spec: ctx.create_reads_edge — a reads edge from the
context's file id. -/
def createReadsEdge (ctx : ExtractionContext) (targetId : String) (line : Nat)
    (pat : String) : Edge :=
  { source_id := ctx.file_id, target_id := targetId, type := .reads,
    metadata := [("line", .int line), ("pattern", .str pat)] }

/-- Modelled from the spec: ctx.create_contains_edge — a contains edge from
the context's file id. -/
def createContainsEdge (ctx : ExtractionContext) (targetId : String) : Edge :=
  { source_id := ctx.file_id, target_id := targetId, type := .contains }

/-- Modelled from the spec: ctx.create_node — a node of the given shape with
`path` guaranteed to be set to the context's file path. -/
def createNode (ctx : ExtractionContext) (id name : String) (type : NodeType)
    (tokens : List String) (metadata : Metadata) : Node :=
  { id := id, name := name, type := type, path := some ctx.file_path,
    tokens := tokens, metadata := metadata }

/-- Modelled from the spec: ctx.create_data_asset_node — a data_asset node
with `path` set and the asset type recorded in metadata. -/
def createDataAssetNode (ctx : ExtractionContext) (id name assetType : String)
    (extra : Metadata) : Node :=
  { id := id, name := name, type := .data_asset, path := some ctx.file_path,
    metadata := [("asset_type", .str assetType)] ++ extra }

/-! ## OpenLineage extractors (C10, C2)

Translation of JobExtractor.extract (jobs.py lines 27-68) and
DatasetExtractor.extract / _process_dataset (datasets.py lines 29-105).
The json.loads step and the single-object/array normalization are upstream
of the per-event logic; the extractors are modelled over the resulting list
of decoded events. Nested facet JSON is carried opaquely as key/value pairs,
with the schema facet's field names (each possibly absent) made explicit. -/

/-- The facets object of a dataset: its raw pairs, and the names of
facets["schema"]["fields"] when the schema facet is present. -/
structure OLFacets where
  raw : List (String × String)
  schemaFields : Option (List (Option String))
  deriving DecidableEq, Repr

/-- The job object of an OpenLineage event. -/
structure OLJobObj where
  ns : Option String
  name : Option String
  facets : List (String × String)
  deriving DecidableEq, Repr

/-- An input or output dataset of an OpenLineage event. -/
structure OLDataset where
  ns : Option String
  name : Option String
  facets : OLFacets
  deriving DecidableEq, Repr

/-- A decoded OpenLineage event with the fields the extractors read. -/
structure OLEvent where
  eventType : Option String
  job : Option OLJobObj
  inputs : List OLDataset
  outputs : List OLDataset
  runId : Option String
  eventTime : Option String
  deriving DecidableEq, Repr

/-- Guard shared by both extractors: only COMPLETE and RUNNING events are
processed. -/
def olEventAccepted (e : OLEvent) : Prop :=
  e.eventType = some "COMPLETE" ∨ e.eventType = some "RUNNING"

instance (e : OLEvent) : Decidable (olEventAccepted e) := by
  unfold olEventAccepted; infer_instance

/-- The job id of an event: event.get("job", {}) with namespace defaulting
to "default". -/
def olJobId (e : OLEvent) : String :=
  let j := e.job.getD ⟨none, none, []⟩
  strCat "job:" (strCat (j.ns.getD "default") (strCat "/" (j.name.getD "")))

/-- JobExtractor.extract over the decoded events, threading the context. -/
def jobsExtractGo (ctx : ExtractionContext) : List OLEvent → List Item × ExtractionContext
  | [] => ([], ctx)
  | e :: rest =>
    if olEventAccepted e then
      let j := e.job.getD ⟨none, none, []⟩
      if pyTruthy j.name then
        let nm := j.name.getD ""
        let jobId := olJobId e
        if ctx.seen_ids.contains jobId then jobsExtractGo ctx rest
        else
          let ctx' := { ctx with seen_ids := ctx.seen_ids ++ [jobId] }
          let node := createNode ctx' jobId nm .job (tokenize nm)
            [("namespace", .str (j.ns.getD "default")), ("source", .str "openlineage"),
             ("facets", .pairs j.facets),
             ("run_id", match e.runId with | some r => .str r | none => .null),
             ("event_time", match e.eventTime with | some t => .str t | none => .null)]
          let (items, ctx'') := jobsExtractGo ctx' rest
          (Item.node node :: Item.edge (createContainsEdge ctx' jobId) :: items, ctx'')
      else jobsExtractGo ctx rest
    else jobsExtractGo ctx rest

/-- DatasetExtractor._process_dataset: the dataset node (once per context)
and the reads or writes edge from the job. -/
def processDataset (ctx : ExtractionContext) (ds : OLDataset) (jobId : String)
    (isInput : Bool) : List Item × ExtractionContext :=
  if pyTruthy ds.name then
    let nm := ds.name.getD ""
    let dsId := strCat "data:" (strCat (ds.ns.getD "default") (strCat "/" nm))
    let edge : Item := .edge
      { source_id := jobId, target_id := dsId,
        type := if isInput then .reads else .writes,
        confidence := 1, metadata := [("source", .str "openlineage")] }
    if ctx.seen_ids.contains dsId then ([edge], ctx)
    else
      let ctx' := { ctx with seen_ids := ctx.seen_ids ++ [dsId] }
      let node := createDataAssetNode ctx' dsId nm "dataset"
        [("namespace", .str (ds.ns.getD "default")), ("source", .str "openlineage"),
         ("schema_fields", .optStrList (ds.facets.schemaFields.getD [])),
         ("facets", .pairs ds.facets.raw)]
      ([Item.node node, edge], ctx')
  else ([], ctx)

/-- Process a list of datasets in order with a fixed direction. -/
def processDatasets (jobId : String) (isInput : Bool) :
    ExtractionContext → List OLDataset → List Item × ExtractionContext
  | ctx, [] => ([], ctx)
  | ctx, ds :: rest =>
    let (items, ctx') := processDataset ctx ds jobId isInput
    let (items', ctx'') := processDatasets jobId isInput ctx' rest
    (items ++ items', ctx'')

/-- DatasetExtractor.extract over the decoded events. -/
def datasetsExtractGo (ctx : ExtractionContext) : List OLEvent → List Item × ExtractionContext
  | [] => ([], ctx)
  | e :: rest =>
    if olEventAccepted e then
      let j := e.job.getD ⟨none, none, []⟩
      if pyTruthy j.name then
        let jobId := olJobId e
        let (ins, ctx1) := processDatasets jobId true ctx e.inputs
        let (outs, ctx2) := processDatasets jobId false ctx1 e.outputs
        let (items, ctx3) := datasetsExtractGo ctx2 rest
        (ins ++ outs ++ items, ctx3)
      else datasetsExtractGo ctx rest
    else datasetsExtractGo ctx rest

/-! ## The dependency graph

The module jnkn.core.graph (class DependencyGraph) is imported by the CLI
and tests but its source is not present; the graph below is modelled from
the specification (sections 3 and 4.1). -/

/-- Modelled from the spec: the typed dependency graph — nodes merged by id,
edges merged by (source, target, type). -/
structure DependencyGraph where
  nodes : List Node
  edges : List Edge
  deriving DecidableEq, Repr

/-- Modelled from the spec: shallow metadata merge — keys of the newer
mapping overwrite those of the older one, other keys are kept. -/
def metaMerge (old new : Metadata) : Metadata :=
  old.filter (fun kv => (Metadata.lookup new kv.1).isNone) ++ new

/-- Modelled from the spec: node merge by id — later path, language and
file_hash overwrite earlier when present, tokens from the later node win
when nonempty, metadata is shallow-merged. -/
def mergeNode (old new : Node) : Node :=
  { id := old.id, name := new.name, type := new.type,
    path := match new.path with | some p => some p | none => old.path,
    language := match new.language with | some l => some l | none => old.language,
    file_hash := match new.file_hash with | some h => some h | none => old.file_hash,
    tokens := if new.tokens = [] then old.tokens else new.tokens,
    metadata := metaMerge old.metadata new.metadata }

/-- Modelled from the spec: add_node — merge into the node with the same id
if one exists, append otherwise. -/
def addNode (g : DependencyGraph) (n : Node) : DependencyGraph :=
  if g.nodes.any (fun m => m.id = n.id) then
    { g with nodes := g.nodes.map (fun m => if m.id = n.id then mergeNode m n else m) }
  else { g with nodes := g.nodes ++ [n] }

/-- Modelled from the spec: add_edge — edge identity is (source, target,
type); on collision the higher-confidence edge wins, on ties metadata is
shallow-merged. -/
def addEdge (g : DependencyGraph) (e : Edge) : DependencyGraph :=
  if g.edges.any (fun d => d.source_id = e.source_id ∧ d.target_id = e.target_id
      ∧ d.type = e.type) then
    { g with edges := g.edges.map (fun d =>
        if d.source_id = e.source_id ∧ d.target_id = e.target_id ∧ d.type = e.type then
          if d.confidence < e.confidence then e
          else if e.confidence < d.confidence then d
          else { d with metadata := metaMerge d.metadata e.metadata }
        else d) }
  else { g with edges := g.edges ++ [e] }

/-- Modelled from the spec: the merger — stream every emitted item into the
graph in order. -/
def buildGraph (items : List Item) : DependencyGraph :=
  items.foldl (fun g it => match it with
    | .node n => addNode g n
    | .edge e => addEdge g e) ⟨[], []⟩

/-- Forward neighbours of an id under all edge types. -/
def successors (g : DependencyGraph) (id : String) : List String :=
  (g.edges.filter (fun e => e.source_id = id)).map (·.target_id)

/-- Backward neighbours of an id under all edge types. -/
def predecessors (g : DependencyGraph) (id : String) : List String :=
  (g.edges.filter (fun e => e.target_id = id)).map (·.source_id)

/-- Breadth-first traversal with a visited set; the fuel bounds the loop and
is chosen large enough to exhaust any graph it is applied to. -/
def bfsGo (next : String → List String) : Nat → List String → List String → List String
  | 0, _, visited => visited
  | _ + 1, [], visited => visited
  | f + 1, x :: queue, visited =>
    let fresh := (next x).filter (fun y => !visited.contains y)
    bfsGo next f (queue ++ fresh) (visited ++ fresh)

/-- Modelled from the spec: downstream(id) — the forward-reachable set under
all edge types, excluding the id itself. -/
def downstream (g : DependencyGraph) (id : String) : List String :=
  (bfsGo (successors g) (g.nodes.length + g.edges.length + 1) [id] [id]).filter
    (fun y => y ≠ id)

/-- Modelled from the spec: upstream(id) — the reverse-reachable set under
all edge types, excluding the id itself. -/
def upstream (g : DependencyGraph) (id : String) : List String :=
  (bfsGo (predecessors g) (g.nodes.length + g.edges.length + 1) [id] [id]).filter
    (fun y => y ≠ id)

/-- Modelled from the spec: find_nodes(substring) — the ids of every node
whose id or name contains the substring, case-insensitively, in graph
order. -/
def findNodes (g : DependencyGraph) (s : String) : List String :=
  ((g.nodes.filter (fun n =>
      strHasSub (strLower n.id) (strLower s) || strHasSub (strLower n.name) (strLower s))).map
    (·.id))

/-! ## Blast-radius resolver and breakdown (C4, C8)

Translation of _run_with_json (blast_radius.py lines 90-123) and _categorize
(lines 126-148). -/

/-- The artifact startswith check of _run_with_json line 101: does the
identifier already carry one of the known full-id prefixes? -/
def hasKnownPre (a : String) : Bool :=
  strStarts a "data:" || strStarts a "file:" || strStarts a "job:" ||
    strStarts a "env:" || strStarts a "infra:"

/-- Resolution of one artifact argument in _run_with_json: an identifier with
a known prefix is used as is; otherwise find_nodes is consulted and the first
match taken; none signals the "No match found" error path. -/
def resolveArtifact (g : DependencyGraph) (a : String) : Option String :=
  if hasKnownPre a then some a
  else
    match findNodes g a with
    | [] => none
    | m :: _ => some m

/-- The five reporting categories of _categorize. -/
inductive ImpactCategory
  | data
  | code
  | config
  | infra
  | other
  deriving DecidableEq, Repr

/-- The category the if/elif chain of _categorize assigns to one id. -/
def categoryOf (a : String) : ImpactCategory :=
  if strStarts a "data:" then .data
  else if strStarts a "file:" || strStarts a "job:" then .code
  else if strStarts a "env:" then .config
  else if strStarts a "infra:" then .infra
  else .other

/-- The breakdown mapping produced by _categorize. -/
structure Breakdown where
  data : List String
  code : List String
  config : List String
  infra : List String
  other : List String
  deriving DecidableEq, Repr

/-- Append one artifact to its category's list, as breakdown[cat].append. -/
def breakdownAdd (b : Breakdown) (a : String) : Breakdown :=
  match categoryOf a with
  | .data => { b with data := b.data ++ [a] }
  | .code => { b with code := b.code ++ [a] }
  | .config => { b with config := b.config ++ [a] }
  | .infra => { b with infra := b.infra ++ [a] }
  | .other => { b with other := b.other ++ [a] }

/-- _categorize: fold the impacted ids, in iteration order, into the five
category lists. -/
def categorize (arts : List String) : Breakdown :=
  arts.foldl breakdownAdd ⟨[], [], [], [], []⟩

/-! ## dbt SQL file extractor (C3)

Translation of SQLFileExtractor.extract (dbt/extractors/sql_files.py lines
29-80). The Jinja regexes accept either quote character on both sides of a
capture, and a capture is a nonempty run excluding both quote characters. -/

/-- Is this character one of the Jinja quote characters? -/
def isJinjaQuote (c : Char) : Bool := (c = '"' || c = '\'')

/-- Match `['\"]([^'\"]+)['\"]`: either quote, a nonempty run of non-quote
characters, either quote. -/
def matchQuotedEither (cs : List Char) : Option (List Char × List Char) :=
  match cs with
  | c :: rest =>
    if isJinjaQuote c then
      let (cap, rem) := takeRun (fun d => !isJinjaQuote d) rest
      match rem with
      | q :: rest2 => if isJinjaQuote q && cap ≠ [] then some (cap, rest2) else none
      | [] => none
    else none
  | [] => none

/-- Match a literal character. -/
def matchCh (c : Char) : List Char → Option (List Char)
  | d :: rest => if d = c then some rest else none
  | [] => none

/-- Skip `\s*`. -/
def skipWs (cs : List Char) : List Char := (takeRun isSpaceChar cs).2

/-- Match REF_PATTERN at the current position: two opening braces, optional
space, the word ref, an argument in quotes between parentheses, two closing
braces. Returns the capture and the rest. -/
def matchJinjaRefAt (cs : List Char) : Option (String × List Char) := do
  let r1 ← matchCh '{' cs
  let r2 ← matchCh '{' r1
  let r3 ← matchLit "ref".data (skipWs r2)
  let r4 ← matchCh '(' (skipWs r3)
  let (cap, r5) ← matchQuotedEither (skipWs r4)
  let r6 ← matchCh ')' (skipWs r5)
  let r7 ← matchCh '}' (skipWs r6)
  let r8 ← matchCh '}' r7
  pure (String.mk cap, r8)

/-- Match SOURCE_PATTERN at the current position: like REF_PATTERN but with
the word source and two comma-separated quoted arguments. -/
def matchJinjaSourceAt (cs : List Char) : Option ((String × String) × List Char) := do
  let r1 ← matchCh '{' cs
  let r2 ← matchCh '{' r1
  let r3 ← matchLit "source".data (skipWs r2)
  let r4 ← matchCh '(' (skipWs r3)
  let (cap1, r5) ← matchQuotedEither (skipWs r4)
  let r6 ← matchCh ',' (skipWs r5)
  let (cap2, r7) ← matchQuotedEither (skipWs r6)
  let r8 ← matchCh ')' (skipWs r7)
  let r9 ← matchCh '}' (skipWs r8)
  let r10 ← matchCh '}' r9
  pure ((String.mk cap1, String.mk cap2), r10)

/-- Match CONFIG_PATTERN at the current position: the word config and a
nonempty run of non-parenthesis characters between parentheses. -/
def matchJinjaConfigAt (cs : List Char) : Option (String × List Char) := do
  let r1 ← matchCh '{' cs
  let r2 ← matchCh '{' r1
  let r3 ← matchLit "config".data (skipWs r2)
  let r4 ← matchCh '(' (skipWs r3)
  let (cap, r5) := takeRun (fun d => d != ')') r4
  if cap = [] then none
  else do
    let r6 ← matchCh ')' r5
    let r7 ← matchCh '}' (skipWs r6)
    let r8 ← matchCh '}' r7
    pure (String.mk cap, r8)

/-- All non-overlapping matches of a positional matcher, left to right, each
paired with its line number (newlines before the match start, plus one), as
re.finditer with the line computation of the extractor. -/
def scanMatches {α : Type} (m : List Char → Option (α × List Char)) :
    Nat → Nat → List Char → List (α × Nat)
  | 0, _, _ => []
  | _ + 1, _, [] => []
  | f + 1, ln, c :: rest =>
    match m (c :: rest) with
    | some (cap, rem) =>
      let consumed := (c :: rest).length - rem.length
      let seg := (c :: rest).take consumed
      (cap, ln) :: scanMatches m f (ln + countChar '\n' seg) rem
    | none => scanMatches m f (ln + if c = '\n' then 1 else 0) rest

/-- Run a scan over a whole text starting at line 1. -/
def findAllMatches {α : Type} (m : List Char → Option (α × List Char))
    (cs : List Char) : List (α × Nat) :=
  scanMatches m cs.length 1 cs

/-- The final path component without its last extension, as Python
Path.stem: the last dot splits off the suffix unless it is the leading
character of the name. -/
def stemName (path : String) : String :=
  let nm := (baseName path).data
  let rev := nm.reverse
  match rev.dropWhile (fun c => c != '.') with
  | '.' :: r2 => if r2 = [] then String.mk nm else String.mk r2.reverse
  | _ => String.mk nm

/-- SQLFileExtractor.extract: the model node inferred from the file stem, the
contains edge from the file, one depends_on edge per ref() and one reads edge
per source(). -/
def sqlFileExtract (ctx : ExtractionContext) (text : List Char) : List Item :=
  let modelName := stemName ctx.file_path
  let modelId := strCat "data:model:" modelName
  let configMeta : Metadata :=
    match searchAt (fun cs => (matchJinjaConfigAt cs).map (·.1)) text with
    | some cfg => if listHasSub "materialized".data cfg.data then
        [("materialized", .str "derived")] else []
    | none => []
  Item.node { id := modelId, name := modelName, type := .data_asset,
              path := some ctx.file_path,
              metadata := [("resource_type", .str "model"), ("from_sql", .bool true)]
                ++ configMeta }
    :: Item.edge { source_id := ctx.file_id, target_id := modelId, type := .contains }
    :: ((findAllMatches matchJinjaRefAt text).map fun (refName, ln) =>
          Item.edge { source_id := modelId, target_id := strCat "data:model:" refName,
                      type := .depends_on,
                      metadata := [("line", .int ln), ("type", .str "ref")] })
    ++ ((findAllMatches matchJinjaSourceAt text).map fun (st, ln) =>
          Item.edge { source_id := modelId,
                      target_id := strCat "data:source:" (strCat st.1 (strCat "." st.2)),
                      type := .reads,
                      metadata := [("line", .int ln), ("type", .str "source")] })

/-! ## Python env-var extractors (C6)

Translation of StdlibExtractor.extract (stdlib.py lines 104-133) and
HeuristicExtractor.extract (heuristic.py lines 111-143). The regex engine's
output over the file text is taken as input: each stdlib match is a variable
name with its line and matching pattern name, each heuristic match is a
variable name with its line and whether the enclosing line contains one of
the env-indicator keywords. The name-validation predicate of
jnkn.parsing.python.validation (module absent) is a parameter. -/

/-- StdlibExtractor.extract: per match, validate the name, deduplicate
through ctx.mark_seen, then emit the env_var node and the reads edge. -/
def stdlibExtractGo (isValid : String → Bool) :
    ExtractionContext → List (String × Nat × String) → List Item × ExtractionContext
  | ctx, [] => ([], ctx)
  | ctx, (v, ln, pat) :: rest =>
    if isValid v then
      let (fresh, ctx') := markSeen ctx v
      if fresh then
        let (items, ctx'') := stdlibExtractGo isValid ctx' rest
        (Item.node (createEnvVarNode ctx' v ln pat [])
          :: Item.edge (createReadsEdge ctx' (strCat "env:" v) ln pat) :: items, ctx'')
      else stdlibExtractGo isValid ctx' rest
    else stdlibExtractGo isValid ctx rest

/-- HeuristicExtractor.extract: per match, deduplicate through ctx.mark_seen
first (consuming the name even when the indicator check then fails), then
require an env indicator on the line, then emit the node (with heuristic
confidence 0.7 in metadata) and the reads edge. -/
def heuristicExtractGo :
    ExtractionContext → List (String × Nat × Bool) → List Item × ExtractionContext
  | ctx, [] => ([], ctx)
  | ctx, (v, ln, hasInd) :: rest =>
    let (fresh, ctx') := markSeen ctx v
    if fresh then
      if hasInd then
        let (items, ctx'') := heuristicExtractGo ctx' rest
        (Item.node (createEnvVarNode ctx' v ln "heuristic" [("confidence", .num (7/10))])
          :: Item.edge (createReadsEdge ctx' (strCat "env:" v) ln "heuristic") :: items,
         ctx'')
      else heuristicExtractGo ctx' rest
    else heuristicExtractGo ctx' rest

/-! ## Import placeholder nodes (C9)

Translation of JavaScriptParser._extract_imports_regex (javascript/parser.py
lines 469-515) and of the import section of PythonParser._parse_with_regex
(python/parser.py lines 697-720). The regex engine's output is taken as
input: for JavaScript each match is the captured module name together with
the full matched text (used for the is_commonjs / is_dynamic metadata), for
Python just the module name. -/

/-- JavaScriptParser._extract_imports_regex: per first occurrence of a module
name, a placeholder node (virtual, under node_modules for non-relative
imports) and an imports edge from the file. -/
def jsImportsGo (fileId : String) :
    List String → List (String × String) → List Item
  | _, [] => []
  | seen, (m, matched) :: rest =>
    if seen.contains m then jsImportsGo fileId seen rest
    else
      let isCommonjs := strHasSub matched "require"
      let isDynamic := strHasSub matched "import(" ||
        (strHasSub matched "import" && strHasSub matched "(")
      let targetPath := if strStarts m "." then m else strCat "node_modules/" m
      let targetId := strCat "file://" targetPath
      Item.node { id := targetId, name := m, type := .unknown,
                  metadata := [("virtual", .bool true), ("import_name", .str m),
                               ("is_commonjs", .bool isCommonjs),
                               ("is_dynamic", .bool isDynamic)] }
        :: Item.edge { source_id := fileId, target_id := targetId, type := .imports,
                       metadata := [("is_commonjs", .bool isCommonjs),
                                    ("is_dynamic", .bool isDynamic)] }
        :: jsImportsGo fileId (seen ++ [m]) rest

/-- Python str.replace(".", "/") on a module name (single-character
replacement, hence a character map). -/
def replaceDotSlash (m : String) : String :=
  String.mk (m.data.map (fun c => if c = '.' then '/' else c))

/-- The import loop of PythonParser._parse_with_regex: per first occurrence
of a module name, a virtual placeholder node at the module's synthetic .py
path and an imports edge from the file. -/
def pyImportsGo (fileId : String) : List String → List String → List Item
  | _, [] => []
  | seen, m :: rest =>
    if seen.contains m then pyImportsGo fileId seen rest
    else
      let targetId := strCat "file://" (strCat (replaceDotSlash m) ".py")
      Item.node { id := targetId, name := m, type := .unknown,
                  metadata := [("virtual", .bool true)] }
        :: Item.edge { source_id := fileId, target_id := targetId, type := .imports }
        :: pyImportsGo fileId (seen ++ [m]) rest

/-! ## Concrete scenario inputs

Concrete inputs for the end-to-end scenarios the claims quote (S4, S5), for
the resolver, and for the Terraform witness file. -/

/-- Is this item the infra_resource node the Terraform parser emits for
resource type `t` and name `n`? -/
def isResourceNodeFor (t n : String) : Item → Bool
  | .node nd =>
    nd.id = strCat "infra:" (strCat t (strCat "." n)) && nd.name = n
      && nd.type = NodeType.infra_resource
  | .edge _ => false

/-- Is this item the provisions edge from the file node to resource `t.n`? -/
def isProvisionEdgeFor (fileId t n : String) (it : Item) : Bool :=
  it = .edge { source_id := fileId,
               target_id := strCat "infra:" (strCat t (strCat "." n)),
               type := .provisions }

/-- The S5 OpenLineage event: a COMPLETE run of job default/etl reading
default/raw.orders and writing default/curated.orders. -/
def evS5 : OLEvent :=
  ⟨some "COMPLETE", some ⟨some "default", some "etl", []⟩,
   [⟨some "default", some "raw.orders", ⟨[], none⟩⟩],
   [⟨some "default", some "curated.orders", ⟨[], none⟩⟩], none, none⟩

/-- The items both OpenLineage extractors emit for the S5 event, job
extractor (priority 100) first, sharing one context. -/
def s5Items : List Item :=
  let ctx := newContext "lineage/events.json"
  let (jobItems, ctx1) := jobsExtractGo ctx [evS5]
  let (dsItems, _) := datasetsExtractGo ctx1 [evS5]
  jobItems ++ dsItems

/-- The graph built from the S5 event. -/
def gS5 : DependencyGraph := buildGraph s5Items

/-- The dbt model file of S4 that reads source raw.customers. -/
def textStg : String := "select * from \x7b\x7b source(\x22raw\x22, \x22customers\x22) \x7d\x7d"

/-- The dbt model file of S4 that refs stg_customers. -/
def textFct : String := "select * from \x7b\x7b ref(\x22stg_customers\x22) \x7d\x7d"

/-- The items the dbt SQL extractor emits for the two S4 model files. -/
def s4Items : List Item :=
  sqlFileExtract (newContext "models/stg_customers.sql") textStg.data ++
    sqlFileExtract (newContext "models/fct_orders.sql") textFct.data

/-- The graph built from the S4 model files. -/
def gS4 : DependencyGraph := buildGraph s4Items

/-- A graph with two env_var nodes both matching the substring db_host, the
second of which matches the query exactly. -/
def gC4 : DependencyGraph :=
  ⟨[{ id := "env:DB_HOST_ALT", name := "DB_HOST_ALT", type := .env_var },
    { id := "env:DB_HOST", name := "DB_HOST", type := .env_var }], []⟩

/-- A one-line Terraform file declaring one resource. -/
def tfWitnessText : String :=
  "resource \x22aws_db_instance\x22 \x22payment_db_host\x22 \x7b\x7d"

/-- A decoded, well-formed Terraform plan with one created s3 bucket. -/
def samplePlan : PyJson :=
  .obj [("format_version", .str "1.0"),
        ("resource_changes", .arr [
          .obj [("address", .str "aws_s3_bucket.logs"),
                ("type", .str "aws_s3_bucket"),
                ("name", .str "logs"),
                ("change", .obj [("actions", .arr [.str "create"])])]])]

/-- The single node the plan parser emits for samplePlan. -/
def samplePlanNode : Item :=
  .node { id := "infra:aws_s3_bucket.logs", name := "logs", type := .infra_resource,
          metadata := [("terraform_address", .json (.str "aws_s3_bucket.logs")),
                       ("change_actions", .json (.arr [.str "create"]))] }

/-- An OpenLineage event with eventType START (not COMPLETE or RUNNING). -/
def evStart : OLEvent :=
  ⟨some "START", some ⟨some "default", some "etl", []⟩,
   [⟨some "default", some "raw.orders", ⟨[], none⟩⟩],
   [⟨some "default", some "curated.orders", ⟨[], none⟩⟩], none, none⟩

/-- The placeholder node the JavaScript import extractor emits for the
non-relative import of react. -/
def jsReactNode : Node :=
  { id := "file://node_modules/react", name := "react", type := .unknown,
    metadata := [("virtual", .bool true), ("import_name", .str "react"),
                 ("is_commonjs", .bool false), ("is_dynamic", .bool false)] }

/-- The placeholder node the Python regex import loop emits for the import
of requests. -/
def pyRequestsNode : Node :=
  { id := "file://requests.py", name := "requests", type := .unknown,
    metadata := [("virtual", .bool true)] }

/-! ## Theorems -/

/-- C1. The claim states that every parser never raises on malformed input
and, on decode or parse failure, emits the file-level node only and then
stops — in particular the Terraform plan parser on bytes that are not valid
JSON or on JSON without resource_changes. Counterexample: on text that is
not valid JSON the plan parser returns an empty stream with no code_file
node in it; and on the perfectly decodable inputs null and 5 — JSON without
resource_changes — it raises a TypeError from the membership test, as it
does from the subscript on a JSON string containing the key, and it lets a
UnicodeDecodeError escape on undecodable bytes. -/
theorem c1_plan_parser_counterexample :
    terraformPlanParse PlanBytes.invalidJson = Except.ok ([] : List Item) ∧
    ([] : List Item).any Item.isCodeFile = false ∧
    terraformPlanParse (PlanBytes.decoded PyJson.null) = Except.error PyError.typeError ∧
    terraformPlanParse (PlanBytes.decoded (PyJson.int 5))
      = Except.error PyError.typeError ∧
    terraformPlanParse (PlanBytes.decoded (PyJson.str "a resource_changes key"))
      = Except.error PyError.typeError ∧
    terraformPlanParse PlanBytes.undecodableBytes
      = Except.error PyError.unicodeDecodeError := by
  refine ⟨rfl, rfl, rfl, rfl, rfl, rfl⟩

/-- Items of the change loop are infra nodes, never file-level nodes. -/
lemma planChangeItems_no_code_file :
    ∀ (cs : List PyJson) (items : List Item),
      planChangeItems cs = .ok items → items.any Item.isCodeFile = false := by
  intro cs
  induction cs with
  | nil =>
    intro items h
    rw [planChangeItems] at h
    injection h with h
    rw [h.symm]
    rfl
  | cons change rest ih =>
    intro items h
    rw [planChangeItems] at h
    cases h1 : pyGet "type" change with
    | error e => simp only [h1] at h; simp at h
    | ok resType =>
      simp only [h1] at h
      cases h2 : pyGet "name" change with
      | error e => simp only [h2] at h; simp at h
      | ok resName =>
        simp only [h2] at h
        cases h3 : pyGet "address" change with
        | error e => simp only [h3] at h; simp at h
        | ok address =>
          simp only [h3] at h
          cases htr : (pyOptTruthy resType && pyOptTruthy resName) with
          | false =>
            simp only [htr, Bool.false_eq_true, if_false] at h
            exact ih items h
          | true =>
            simp only [htr, if_true] at h
            cases h4 : pyGetD "change" (.obj []) change with
            | error e => simp only [h4] at h; simp at h
            | ok chg =>
              simp only [h4] at h
              cases h5 : pyGetD "actions" (.arr []) chg with
              | error e => simp only [h5] at h; simp at h
              | ok actions =>
                simp only [h5] at h
                cases h6 : planChangeItems rest with
                | error e => simp only [h6] at h; simp at h
                | ok items0 =>
                  simp only [h6] at h
                  injection h with h
                  rw [h.symm]
                  simp only [List.any_cons, Item.isCodeFile]
                  simp [ih items0 h6]

/-- C1 (amended). The static Terraform parser never raises (its decode uses
errors=ignore and its translation is total) and emits the file-level
code_file node first for every path and text. The Terraform plan parser,
however, never emits a file-level node on any path, and is not total: on
text that is not valid JSON, and on a decoded object without the
resource_changes key, it returns an empty stream; but on decoded JSON whose
top level is not a container (null, a boolean, a number) the membership test
raises TypeError; on a decoded JSON string containing the key the subscript
raises TypeError; and on bytes that do not decode as UTF-8 the
UnicodeDecodeError from json.loads escapes uncaught. On a well-formed plan
it emits the infra nodes of the resource changes and nothing else. -/
theorem c1_amended_file_node_behavior :
    (∀ (path : String) (text : List Char),
      (terraformParse path text).head? = some (tfFileNode path)) ∧
    terraformPlanParse PlanBytes.invalidJson = Except.ok [] ∧
    (∀ kvs : List (String × PyJson),
      kvs.any (fun kv => kv.1 = "resource_changes") = false →
      terraformPlanParse (PlanBytes.decoded (PyJson.obj kvs)) = Except.ok []) ∧
    terraformPlanParse (PlanBytes.decoded PyJson.null) = Except.error PyError.typeError ∧
    terraformPlanParse (PlanBytes.decoded (PyJson.bool true))
      = Except.error PyError.typeError ∧
    terraformPlanParse (PlanBytes.decoded (PyJson.int 5))
      = Except.error PyError.typeError ∧
    (∀ s : String, strHasSub s "resource_changes" = true →
      terraformPlanParse (PlanBytes.decoded (PyJson.str s))
        = Except.error PyError.typeError) ∧
    terraformPlanParse PlanBytes.undecodableBytes
      = Except.error PyError.unicodeDecodeError ∧
    (∀ (b : PlanBytes) (items : List Item),
      terraformPlanParse b = Except.ok items → items.any Item.isCodeFile = false) ∧
    terraformPlanParse (PlanBytes.decoded samplePlan) = Except.ok [samplePlanNode] := by
  refine ⟨fun _ _ => rfl, rfl, ?_, rfl, rfl, rfl, ?_, rfl, ?_, rfl⟩
  · intro kvs hk
    simp [terraformPlanParse, pyContainsStr, hk]
  · intro s hs
    simp [terraformPlanParse, pyContainsStr, pySubscript, hs]
  · intro b items h
    cases b with
    | undecodableBytes => simp [terraformPlanParse] at h
    | invalidJson =>
      rw [terraformPlanParse] at h
      injection h with h
      rw [h.symm]
      rfl
    | decoded plan =>
      rw [terraformPlanParse] at h
      cases hc : pyContainsStr "resource_changes" plan with
      | error e => simp only [hc] at h; simp at h
      | ok contained =>
        simp only [hc] at h
        cases contained with
        | false =>
          simp only [Bool.not_false, if_true] at h
          injection h with h
          rw [h.symm]
          rfl
        | true =>
          simp only [Bool.not_true, Bool.false_eq_true, if_false] at h
          cases hs : pySubscript "resource_changes" plan with
          | error e => simp only [hs] at h; simp at h
          | ok rc =>
            simp only [hs] at h
            cases hi : pyIterate rc with
            | error e => simp only [hi] at h; simp at h
            | ok changes =>
              simp only [hi] at h
              exact planChangeItems_no_code_file changes items h

/-- Witness for C1 (amended): the hypothesis-bearing branches at concrete
inputs — an object without the key, a string containing the key, and the
no-code-file property at the empty stream of invalid JSON. -/
theorem c1_amended_file_node_behavior_witness :
    terraformPlanParse (PlanBytes.decoded (PyJson.obj [("format_version", .str "1.0")]))
      = Except.ok [] ∧
    terraformPlanParse (PlanBytes.decoded (PyJson.str "contains resource_changes here"))
      = Except.error PyError.typeError ∧
    ([] : List Item).any Item.isCodeFile = false :=
  ⟨c1_amended_file_node_behavior.2.2.1 [("format_version", .str "1.0")] (by decide),
   c1_amended_file_node_behavior.2.2.2.2.2.2.1 "contains resource_changes here" (by decide),
   c1_amended_file_node_behavior.2.2.2.2.2.2.2.2.1 PlanBytes.invalidJson []
     c1_amended_file_node_behavior.2.1⟩

/-- C2. The claim states that in the graph built from the S5 OpenLineage
event, the upstream (reverse-reachable) set of data:default/curated.orders
contains both job:default/etl and data:default/raw.orders. Counterexample:
in that graph the job is upstream but the input dataset raw.orders is not,
because the extractor emits the read edge from the job to the dataset. -/
theorem c2_upstream_counterexample :
    (upstream gS5 "data:default/curated.orders").contains "job:default/etl" = true ∧
    (upstream gS5 "data:default/curated.orders").contains "data:default/raw.orders"
      = false := by
  refine ⟨by decide, by decide⟩

/-- C2 (amended). In the graph built from the S5 OpenLineage event, the
upstream set of data:default/curated.orders contains job:default/etl but not
data:default/raw.orders; the input dataset is instead forward-reachable
(downstream) from the job, since the job's reads edge points from the job to
the dataset. -/
theorem c2_amended_lineage_reachability :
    "job:default/etl" ∈ upstream gS5 "data:default/curated.orders" ∧
    "data:default/raw.orders" ∉ upstream gS5 "data:default/curated.orders" ∧
    "data:default/raw.orders" ∈ downstream gS5 "job:default/etl" ∧
    "data:default/curated.orders" ∈ downstream gS5 "job:default/etl" := by
  refine ⟨by decide, by decide, by decide, by decide⟩

/-- C3. The claim states that in the graph built from the two S4 dbt model
files, the downstream (forward-reachable) set of data:source:raw.customers
includes data:model:stg_customers and data:model:fct_orders. Counterexample:
in that graph the downstream set of the source is empty — the models sit on
the incoming side of the source's reads edge, not the outgoing one. -/
theorem c3_downstream_counterexample :
    downstream gS4 "data:source:raw.customers" = [] ∧
    (downstream gS4 "data:source:raw.customers").contains "data:model:stg_customers"
      = false := by
  refine ⟨by decide, by decide⟩

/-- C3 (amended). In the graph built from the two S4 dbt model files, the
upstream (reverse-reachable) set of data:source:raw.customers includes
data:model:stg_customers and data:model:fct_orders, while its downstream
(forward-reachable) set is empty, because the extractor's reads and
depends_on edges point from each model to what it consumes. -/
theorem c3_amended_dbt_reachability :
    "data:model:stg_customers" ∈ upstream gS4 "data:source:raw.customers" ∧
    "data:model:fct_orders" ∈ upstream gS4 "data:source:raw.customers" ∧
    downstream gS4 "data:source:raw.customers" = [] := by
  refine ⟨by decide, by decide, by decide⟩

/-- C4. The claim states that the resolver, given a non-full identifier whose
substring matches more than one node, fails with a structured ambiguous error
enumerating the candidates, preferring exact matches first. Counterexample:
in a graph where the substring db_host matches two nodes — the second of
which is the exact-name match env:DB_HOST — the resolver succeeds anyway and
returns the first find_nodes match, which is not the exact one. -/
theorem c4_resolver_counterexample :
    hasKnownPre "db_host" = false ∧
    findNodes gC4 "db_host" = ["env:DB_HOST_ALT", "env:DB_HOST"] ∧
    resolveArtifact gC4 "db_host" = some "env:DB_HOST_ALT" := by
  refine ⟨by decide, by decide, by decide⟩

/-- C4 (amended). An identifier carrying one of the known full-id prefixes is
used unchanged; any other identifier is expanded by calling find_nodes and
resolved to the first match — with no preference for exact or unique-prefix
matches and no ambiguity error — and only an empty match list is reported as
an error (the none result). -/
theorem c4_amended_first_match_resolution :
    (∀ (g : DependencyGraph) (a : String), hasKnownPre a = true →
      resolveArtifact g a = some a) ∧
    (∀ (g : DependencyGraph) (a : String), hasKnownPre a = false →
      resolveArtifact g a = (findNodes g a).head?) := by
  constructor
  · intro g a h
    simp [resolveArtifact, h]
  · intro g a h
    simp only [resolveArtifact, h, Bool.false_eq_true, if_false]
    cases findNodes g a with
    | nil => rfl
    | cons m rest => rfl

/-- Witness for C4 (amended): the two branches at concrete inputs on gC4. -/
theorem c4_amended_first_match_resolution_witness :
    resolveArtifact gC4 "env:DB_HOST" = some "env:DB_HOST" ∧
    resolveArtifact gC4 "db_host" = (findNodes gC4 "db_host").head? :=
  ⟨c4_amended_first_match_resolution.1 gC4 "env:DB_HOST" (by decide),
   c4_amended_first_match_resolution.2 gC4 "db_host" (by decide)⟩

/-- C10. An OpenLineage event whose eventType is not COMPLETE and not
RUNNING (for example START or FAIL, or an absent eventType) contributes
nothing to either extractor: both the job extractor and the dataset
extractor produce exactly the output and state they would produce without
that event. -/
theorem c10_event_type_filter :
    ∀ (ctx : ExtractionContext) (e : OLEvent) (rest : List OLEvent),
      ¬ olEventAccepted e →
      jobsExtractGo ctx (e :: rest) = jobsExtractGo ctx rest ∧
      datasetsExtractGo ctx (e :: rest) = datasetsExtractGo ctx rest := by
  intro ctx e rest h
  constructor
  · rw [jobsExtractGo, if_neg h]
  · rw [datasetsExtractGo, if_neg h]

/-- Witness for C10: a concrete START event is skipped by both extractors. -/
theorem c10_event_type_filter_witness :
    jobsExtractGo (newContext "lineage/events.json") [evStart] =
      jobsExtractGo (newContext "lineage/events.json") [] ∧
    datasetsExtractGo (newContext "lineage/events.json") [evStart] =
      datasetsExtractGo (newContext "lineage/events.json") [] :=
  c10_event_type_filter (newContext "lineage/events.json") evStart [] (by decide)

/-- Joining the fragments of a split recovers exactly the non-separator
characters of the input, in order. -/
lemma splitOnPred_flatten (sep : Char → Bool) (cs : List Char) :
    (splitOnPred sep cs).flatten = cs.filter (fun c => !sep c) := by
  induction cs with
  | nil => simp [splitOnPred]
  | cons c rest ih =>
    rw [splitOnPred]
    cases hc : sep c with
    | true => simpa [List.filter_cons, hc] using ih
    | false =>
      cases htail : splitOnPred sep rest with
      | nil => rw [htail] at ih; simp at ih; simpa [List.filter_cons, hc] using ih
      | cons t ts =>
        rw [htail] at ih
        simp [List.filter_cons, hc, ih.symm]

/-- A split has exactly one more fragment than the input has separators. -/
lemma splitOnPred_length (sep : Char → Bool) (cs : List Char) :
    (splitOnPred sep cs).length = cs.countP sep + 1 := by
  induction cs with
  | nil => simp [splitOnPred]
  | cons c rest ih =>
    rw [splitOnPred]
    cases hc : sep c with
    | true => simp [List.countP_cons, hc, ih]
    | false =>
      cases htail : splitOnPred sep rest with
      | nil => rw [htail] at ih; simp at ih
      | cons t ts =>
        rw [htail] at ih
        simp [List.countP_cons, hc]
        simp at ih
        omega

/-- C5. tokenize(name) returns exactly the fragments of the lowercased name
split on the separators underscore, hyphen, dot and slash, in original order
(a sublist of the fragment list), with every fragment shorter than 2
characters dropped and every fragment of length at least 2 kept; the
fragments themselves are a genuine splitting: flattened they give back the
non-separator characters in order, and there is one more fragment than there
are separator occurrences. The two concrete cases of the repository's unit
test are reproduced. -/
theorem c5_tokenize_spec :
    (∀ name : String, ∀ t ∈ tokenize name, 2 ≤ t.length) ∧
    (∀ name : String, List.Sublist (tokenize name) (tokenFragments name)) ∧
    (∀ name : String, ∀ t ∈ tokenFragments name, 2 ≤ t.length → t ∈ tokenize name) ∧
    (∀ name : String,
      (splitOnPred isTokenSep (lowerChars name.data)).flatten =
        (lowerChars name.data).filter (fun c => !isTokenSep c)) ∧
    (∀ name : String,
      (tokenFragments name).length = (lowerChars name.data).countP isTokenSep + 1) ∧
    tokenize "DB_HOST" = ["db", "host"] ∧
    tokenize "api.v1.url" = ["api", "v1", "url"] := by
  refine ⟨?_, ?_, ?_, ?_, ?_, by decide, by decide⟩
  · intro name t ht
    exact of_decide_eq_true (List.mem_filter.mp ht).2
  · intro name
    exact List.filter_sublist _
  · intro name t ht h2
    exact List.mem_filter.mpr ⟨ht, decide_eq_true h2⟩
  · intro name
    exact splitOnPred_flatten isTokenSep (lowerChars name.data)
  · intro name
    simpa [tokenFragments] using splitOnPred_length isTokenSep (lowerChars name.data)

/-- Witness for C5: both filter directions at the concrete token db of
DB_HOST. -/
theorem c5_tokenize_spec_witness :
    2 ≤ ("db" : String).length ∧ "db" ∈ tokenize "DB_HOST" :=
  ⟨c5_tokenize_spec.1 "DB_HOST" "db" (by decide),
   c5_tokenize_spec.2.2.1 "DB_HOST" "db" (by decide) (by decide)⟩

/-- Equal character data makes equal strings. -/
lemma string_data_inj {a b : String} (h : a.data = b.data) : a = b := by
  cases a
  cases b
  exact congrArg String.mk h

/-- Concatenation with a fixed left part is injective. -/
lemma strCat_right_inj (p : String) {a b : String} (h : strCat p a = strCat p b) :
    a = b := by
  have h2 : p.data ++ a.data = p.data ++ b.data := congrArg String.data h
  exact string_data_inj (List.append_cancel_left h2)

/-- Appending an element preserves membership in the seen set. -/
lemma contains_append_of (l : List String) (v w : String) (h : l.contains v = true) :
    (l ++ [w]).contains v = true := by
  simp [List.contains] at h ⊢
  exact Or.inl h

/-- The appended element itself is in the seen set. -/
lemma contains_append_self (l : List String) (v : String) :
    (l ++ [v]).contains v = true := by
  simp [List.contains]

/-- Once a name is in a context's seen_ids, the heuristic extractor never
emits a node or edge for its env: id, whatever its matches are. -/
lemma heuristic_suppressed (v : String) :
    ∀ (ms : List (String × Nat × Bool)) (ctx : ExtractionContext),
      ctx.seen_ids.contains v = true →
      (heuristicExtractGo ctx ms).1.all
        (fun it => !(Item.isForId (strCat "env:" v) it)) = true := by
  intro ms
  induction ms with
  | nil => intro ctx hv; rfl
  | cons p rest ih =>
    obtain ⟨w, ln, b⟩ := p
    intro ctx hv
    rw [heuristicExtractGo]
    by_cases hc : ctx.seen_ids.contains w = true
    · simp only [markSeen, hc, if_true]
      exact ih ctx hv
    · have hcf : ctx.seen_ids.contains w = false := Bool.eq_false_iff.mpr hc
      have hwv : w ≠ v := by
        intro he
        rw [he, hv] at hcf
        exact Bool.true_eq_false.mp hcf
      have hne : strCat "env:" w ≠ strCat "env:" v := fun h => hwv (strCat_right_inj _ h)
      simp only [markSeen, hcf, Bool.false_eq_true, if_false]
      have hv' : ({ ctx with seen_ids := ctx.seen_ids ++ [w] } :
          ExtractionContext).seen_ids.contains v = true := contains_append_of _ v w hv
      cases b with
      | false =>
        simp only [Bool.false_eq_true, if_false]
        exact ih _ hv'
      | true =>
        simp only [if_true]
        rcases hrec2 : heuristicExtractGo { ctx with seen_ids := ctx.seen_ids ++ [w] } rest
          with ⟨items, ctx2⟩
        have hrec : items.all (fun it => !(Item.isForId (strCat "env:" v) it)) = true := by
          have := ih { ctx with seen_ids := ctx.seen_ids ++ [w] } hv'
          rw [hrec2] at this
          exact this
        simp only [List.all_cons, Bool.and_eq_true]
        refine ⟨?_, ?_, hrec⟩
        · simp [Item.isForId, createEnvVarNode, hne]
        · simp [Item.isForId, createReadsEdge, hne]

/-- The stdlib extractor only grows a context's seen_ids. -/
lemma stdlib_seen_mono (isValid : String → Bool) (v : String) :
    ∀ (ms : List (String × Nat × String)) (ctx : ExtractionContext),
      ctx.seen_ids.contains v = true →
      (stdlibExtractGo isValid ctx ms).2.seen_ids.contains v = true := by
  intro ms
  induction ms with
  | nil => intro ctx hv; exact hv
  | cons p rest ih =>
    obtain ⟨w, ln, pat⟩ := p
    intro ctx hv
    rw [stdlibExtractGo]
    by_cases hval : isValid w = true
    · simp only [hval, if_true]
      by_cases hc : ctx.seen_ids.contains w = true
      · simp only [markSeen, hc, if_true, Bool.false_eq_true, if_false]
        exact ih ctx hv
      · have hcf : ctx.seen_ids.contains w = false := Bool.eq_false_iff.mpr hc
        simp only [markSeen, hcf, Bool.false_eq_true, if_false, if_true]
        have hv' : ({ ctx with seen_ids := ctx.seen_ids ++ [w] } :
            ExtractionContext).seen_ids.contains v = true := contains_append_of _ v w hv
        rcases hrec : stdlibExtractGo isValid { ctx with seen_ids := ctx.seen_ids ++ [w] } rest
          with ⟨items, ctx2⟩
        have := ih { ctx with seen_ids := ctx.seen_ids ++ [w] } hv'
        rw [hrec] at this
        exact this
    · have hvf : isValid w = false := Bool.eq_false_iff.mpr hval
      simp only [hvf, Bool.false_eq_true, if_false]
      exact ih ctx hv

/-- When the stdlib extractor has emitted a node or edge for an environment
variable, the variable is marked in the resulting seen_ids. -/
lemma stdlib_emitted_marked (isValid : String → Bool) (v : String) :
    ∀ (ms : List (String × Nat × String)) (ctx : ExtractionContext),
      (stdlibExtractGo isValid ctx ms).1.any
        (fun it => Item.isForId (strCat "env:" v) it) = true →
      (stdlibExtractGo isValid ctx ms).2.seen_ids.contains v = true := by
  intro ms
  induction ms with
  | nil => intro ctx h; simp [stdlibExtractGo] at h
  | cons p rest ih =>
    obtain ⟨w, ln, pat⟩ := p
    intro ctx h
    rw [stdlibExtractGo] at h ⊢
    by_cases hval : isValid w = true
    · simp only [hval, if_true] at h ⊢
      by_cases hc : ctx.seen_ids.contains w = true
      · simp only [markSeen, hc, if_true, Bool.false_eq_true, if_false] at h ⊢
        exact ih ctx h
      · have hcf : ctx.seen_ids.contains w = false := Bool.eq_false_iff.mpr hc
        simp only [markSeen, hcf, Bool.false_eq_true, if_false, if_true] at h ⊢
        rcases hrec : stdlibExtractGo isValid { ctx with seen_ids := ctx.seen_ids ++ [w] } rest
          with ⟨items, ctx2⟩
        rw [hrec] at h
        by_cases hwv : w = v
        · subst hwv
          have := stdlib_seen_mono isValid w rest
            { ctx with seen_ids := ctx.seen_ids ++ [w] } (contains_append_self _ w)
          rw [hrec] at this
          exact this
        · have hne : strCat "env:" w ≠ strCat "env:" v := fun hx => hwv (strCat_right_inj _ hx)
          have hany : items.any (fun it => Item.isForId (strCat "env:" v) it) = true := by
            simp only [List.any_cons, Item.isForId, createEnvVarNode, createReadsEdge,
              Bool.or_eq_true] at h
            rcases h with h | h | h
            · exact absurd (of_decide_eq_true h) hne
            · exact absurd (of_decide_eq_true h) hne
            · exact h
          have := ih { ctx with seen_ids := ctx.seen_ids ++ [w] }
          rw [hrec] at this
          exact this hany
    · have hvf : isValid w = false := Bool.eq_false_iff.mpr hval
      simp only [hvf, Bool.false_eq_true, if_false] at h ⊢
      exact ih ctx h

/-- C6. Within one file's extraction context, once the priority-100 stdlib
extractor has marked an environment-variable name in the shared seen_ids set
(in particular whenever it emitted a node or edge for it), the priority-10
heuristic extractor emits no node and no edge for that name, whatever its
own matches are; and the deduplication is confined to the file — in a fresh
context for another file the heuristic extractor does emit for the same
name. -/
theorem c6_seen_ids_dedup :
    (∀ (isValid : String → Bool) (stdMs : List (String × Nat × String))
       (heurMs : List (String × Nat × Bool)) (path v : String),
      (stdlibExtractGo isValid (newContext path) stdMs).2.seen_ids.contains v = true →
      (heuristicExtractGo (stdlibExtractGo isValid (newContext path) stdMs).2 heurMs).1.all
        (fun it => !(Item.isForId (strCat "env:" v) it)) = true) ∧
    (∀ (isValid : String → Bool) (stdMs : List (String × Nat × String)) (path v : String),
      (stdlibExtractGo isValid (newContext path) stdMs).1.any
        (fun it => Item.isForId (strCat "env:" v) it) = true →
      (stdlibExtractGo isValid (newContext path) stdMs).2.seen_ids.contains v = true) ∧
    (∀ (path2 v : String) (ln : Nat),
      (heuristicExtractGo (newContext path2) [(v, ln, true)]).1.any
        (fun it => Item.isForId (strCat "env:" v) it) = true) := by
  refine ⟨?_, ?_, ?_⟩
  · intro isValid stdMs heurMs path v hv
    exact heuristic_suppressed v heurMs _ hv
  · intro isValid stdMs path v h
    exact stdlib_emitted_marked isValid v stdMs _ h
  · intro path2 v ln
    simp [heuristicExtractGo, markSeen, newContext, List.contains, createEnvVarNode,
      Item.isForId]

/-- Witness for C6: DB_HOST found by the stdlib extractor in app.py is
marked, hence suppressed in the heuristic extractor of the same context, yet
emitted by the heuristic extractor of a fresh context for other.py. -/
theorem c6_seen_ids_dedup_witness :
    (heuristicExtractGo (stdlibExtractGo (fun _ => true) (newContext "app.py")
        [("DB_HOST", 3, "os.getenv")]).2 [("DB_HOST", 9, true)]).1.all
      (fun it => !(Item.isForId (strCat "env:" "DB_HOST") it)) = true ∧
    (stdlibExtractGo (fun _ => true) (newContext "app.py")
        [("DB_HOST", 3, "os.getenv")]).2.seen_ids.contains "DB_HOST" = true ∧
    (heuristicExtractGo (newContext "other.py") [("DB_HOST", 9, true)]).1.any
      (fun it => Item.isForId (strCat "env:" "DB_HOST") it) = true :=
  ⟨c6_seen_ids_dedup.1 (fun _ => true) [("DB_HOST", 3, "os.getenv")] [("DB_HOST", 9, true)]
      "app.py" "DB_HOST" (by decide),
   c6_seen_ids_dedup.2.1 (fun _ => true) [("DB_HOST", 3, "os.getenv")] "app.py" "DB_HOST"
      (by decide),
   c6_seen_ids_dedup.2.2 "other.py" "DB_HOST" 9⟩

/-- Every line of a .tf file that is not a comment and on which the resource
pattern matches contributes the resource node and the provisions edge to the
line loop's output, whatever the surrounding block state. -/
lemma tfLinesGo_resource_mem (fileId t n : String) :
    ∀ (lines : List (List Char)) (s : TfState) (ln : Nat) (line : List Char),
      line ∈ lines →
      (listStarts "#".data (stripChars line)
        || listStarts "//".data (stripChars line)) = false →
      searchAt (matchTwoQuoted "resource".data) line = some (t, n) →
      (tfLinesGo fileId s ln lines).any (isResourceNodeFor t n) = true ∧
      (tfLinesGo fileId s ln lines).any (isProvisionEdgeFor fileId t n) = true := by
  intro lines
  induction lines with
  | nil => intro s ln line h; cases h
  | cons L rest ih =>
    intro s ln line hmem hcom hmatch
    rw [tfLinesGo]
    rcases List.mem_cons.mp hmem with he | hm
    · subst he
      simp only [tfProcessLine, hcom, Bool.false_eq_true, if_false, hmatch]
      constructor <;>
        simp [List.any_append, List.any_cons, isResourceNodeFor, isProvisionEdgeFor]
    · rcases hpl : tfProcessLine fileId s ln L with ⟨items, s2⟩
      have h2 := ih s2 (ln + 1) line hm hcom hmatch
      constructor <;> simp [List.any_append, h2.1, h2.2]

/-- C7. For every non-comment line of a .tf file on which the pattern
resource "T" "N" matches, the Terraform parser's output contains a node with
id infra:T.N of type infra_resource and a provisions edge from the file's
file:// node to infra:T.N. -/
theorem c7_resource_emission :
    ∀ (path : String) (text : List Char) (line : List Char) (t n : String),
      line ∈ splitLinesChars text →
      (listStarts "#".data (stripChars line)
        || listStarts "//".data (stripChars line)) = false →
      searchAt (matchTwoQuoted "resource".data) line = some (t, n) →
      (terraformParse path text).any (isResourceNodeFor t n) = true ∧
      (terraformParse path text).any
        (isProvisionEdgeFor (strCat "file://" path) t n) = true := by
  intro path text line t n hmem hcom hmatch
  have h := tfLinesGo_resource_mem (strCat "file://" path) t n (splitLinesChars text)
    ⟨none, none, 0⟩ 1 line hmem hcom hmatch
  rw [terraformParse]
  constructor
  · simp [List.any_cons, isResourceNodeFor, tfFileNode, h.1]
  · simp [List.any_cons, isProvisionEdgeFor, tfFileNode, h.2]

/-- Witness for C7: the one-line file declaring
resource "aws_db_instance" "payment_db_host". -/
theorem c7_resource_emission_witness :
    (terraformParse "infra/main.tf" tfWitnessText.data).any
      (isResourceNodeFor "aws_db_instance" "payment_db_host") = true ∧
    (terraformParse "infra/main.tf" tfWitnessText.data).any
      (isProvisionEdgeFor (strCat "file://" "infra/main.tf")
        "aws_db_instance" "payment_db_host") = true :=
  c7_resource_emission "infra/main.tf" tfWitnessText.data tfWitnessText.data
    "aws_db_instance" "payment_db_host" (by decide) (by decide) (by decide)

/-- The fold underlying _categorize appends every artifact to exactly the
category list its prefix selects. -/
lemma categorize_foldl_spec (arts : List String) (b : Breakdown) :
    arts.foldl breakdownAdd b =
      ⟨b.data ++ arts.filter (fun a => strStarts a "data:"),
       b.code ++ arts.filter (fun a =>
         !strStarts a "data:" && (strStarts a "file:" || strStarts a "job:")),
       b.config ++ arts.filter (fun a =>
         !strStarts a "data:" && !(strStarts a "file:" || strStarts a "job:") &&
           strStarts a "env:"),
       b.infra ++ arts.filter (fun a =>
         !strStarts a "data:" && !(strStarts a "file:" || strStarts a "job:") &&
           !strStarts a "env:" && strStarts a "infra:"),
       b.other ++ arts.filter (fun a =>
         !strStarts a "data:" && !(strStarts a "file:" || strStarts a "job:") &&
           !strStarts a "env:" && !strStarts a "infra:")⟩ := by
  induction arts generalizing b with
  | nil => simp
  | cons a rest ih =>
    rw [List.foldl_cons, ih]
    cases hd : strStarts a "data:" <;>
      cases hf : strStarts a "file:" <;>
        cases hj : strStarts a "job:" <;>
          cases he : strStarts a "env:" <;>
            cases hi : strStarts a "infra:" <;>
              simp [breakdownAdd, categoryOf, hd, hf, hj, he, hi, List.filter_cons,
                List.append_assoc]

/-- The five category predicates are exhaustive and mutually exclusive, so
the category sizes add up to the input size. -/
lemma categorize_filter_lengths (arts : List String) :
    (arts.filter (fun a => strStarts a "data:")).length +
      (arts.filter (fun a =>
        !strStarts a "data:" && (strStarts a "file:" || strStarts a "job:"))).length +
      (arts.filter (fun a =>
        !strStarts a "data:" && !(strStarts a "file:" || strStarts a "job:") &&
          strStarts a "env:")).length +
      (arts.filter (fun a =>
        !strStarts a "data:" && !(strStarts a "file:" || strStarts a "job:") &&
          !strStarts a "env:" && strStarts a "infra:")).length +
      (arts.filter (fun a =>
        !strStarts a "data:" && !(strStarts a "file:" || strStarts a "job:") &&
          !strStarts a "env:" && !strStarts a "infra:")).length = arts.length := by
  induction arts with
  | nil => rfl
  | cons a rest ih =>
    cases hd : strStarts a "data:" <;>
      cases hf : strStarts a "file:" <;>
        cases hj : strStarts a "job:" <;>
          cases he : strStarts a "env:" <;>
            cases hi : strStarts a "infra:" <;>
              · simp [List.filter_cons, hd, hf, hj, he, hi] at ih ⊢
                omega

/-- C8. The breakdown partitions the impacted ids into exactly the five
categories by id prefix: ids starting with data: land in data; of the rest,
ids starting with file: or job: land in code; of the rest, env: ids land in
config; of the rest, infra: ids land in infra; everything else lands in
other. Each category equals the corresponding filter of the input, in input
order, and the category sizes sum to the input size, so every impacted id
lands in exactly one category. -/
theorem c8_breakdown_partition (arts : List String) :
    (categorize arts).data = arts.filter (fun a => strStarts a "data:") ∧
    (categorize arts).code = arts.filter (fun a =>
      !strStarts a "data:" && (strStarts a "file:" || strStarts a "job:")) ∧
    (categorize arts).config = arts.filter (fun a =>
      !strStarts a "data:" && !(strStarts a "file:" || strStarts a "job:") &&
        strStarts a "env:") ∧
    (categorize arts).infra = arts.filter (fun a =>
      !strStarts a "data:" && !(strStarts a "file:" || strStarts a "job:") &&
        !strStarts a "env:" && strStarts a "infra:") ∧
    (categorize arts).other = arts.filter (fun a =>
      !strStarts a "data:" && !(strStarts a "file:" || strStarts a "job:") &&
        !strStarts a "env:" && !strStarts a "infra:") ∧
    (categorize arts).data.length + (categorize arts).code.length +
      (categorize arts).config.length + (categorize arts).infra.length +
      (categorize arts).other.length = arts.length := by
  have h := categorize_foldl_spec arts ⟨[], [], [], [], []⟩
  rw [categorize, h]
  refine ⟨by simp, by simp, by simp, by simp, by simp, ?_⟩
  simpa using categorize_filter_lengths arts

/-- C9. Every placeholder node the JavaScript import extractor emits for a
non-relative module carries virtual: true in its metadata and has the
synthetic id file://node_modules/<module>; every placeholder node the Python
regex import loop emits carries virtual: true and has the synthetic id
file://<module with dots replaced by slashes>.py. -/
theorem c9_virtual_import_placeholders :
    (∀ (fileId : String) (seen : List String) (ms : List (String × String)) (n : Node),
      Item.node n ∈ jsImportsGo fileId seen ms →
      strStarts n.name "." = false →
      Metadata.lookup n.metadata "virtual" = some (.bool true) ∧
      n.id = strCat "file://" (strCat "node_modules/" n.name)) ∧
    (∀ (fileId : String) (seen : List String) (ms : List String) (n : Node),
      Item.node n ∈ pyImportsGo fileId seen ms →
      Metadata.lookup n.metadata "virtual" = some (.bool true) ∧
      n.id = strCat "file://" (strCat (replaceDotSlash n.name) ".py")) := by
  constructor
  · intro fileId seen ms
    induction ms generalizing seen with
    | nil =>
      intro n h
      simp [jsImportsGo] at h
    | cons p rest ih =>
      obtain ⟨m, matched⟩ := p
      intro n hmem hdot
      rw [jsImportsGo] at hmem
      by_cases hc : seen.contains m = true
      · rw [if_pos hc] at hmem
        exact ih seen n hmem hdot
      · rw [if_neg hc] at hmem
        simp only [List.mem_cons] at hmem
        rcases hmem with h | h | h
        · rw [Item.node.injEq] at h
          subst h
          simp only at hdot
          refine ⟨rfl, ?_⟩
          simp [if_neg, hdot]
        · exact absurd h (by simp)
        · exact ih (seen ++ [m]) n h hdot
  · intro fileId seen ms
    induction ms generalizing seen with
    | nil =>
      intro n h
      simp [pyImportsGo] at h
    | cons m rest ih =>
      intro n hmem
      rw [pyImportsGo] at hmem
      by_cases hc : seen.contains m = true
      · rw [if_pos hc] at hmem
        exact ih seen n hmem
      · rw [if_neg hc] at hmem
        simp only [List.mem_cons] at hmem
        rcases hmem with h | h | h
        · rw [Item.node.injEq] at h
          subst h
          exact ⟨rfl, rfl⟩
        · exact absurd h (by simp)
        · exact ih (seen ++ [m]) n h

/-- Witness for C9: the react placeholder of a JavaScript file and the
requests placeholder of a Python file. -/
theorem c9_virtual_import_placeholders_witness :
    (Metadata.lookup jsReactNode.metadata "virtual" = some (.bool true) ∧
      jsReactNode.id = strCat "file://" (strCat "node_modules/" jsReactNode.name)) ∧
    (Metadata.lookup pyRequestsNode.metadata "virtual" = some (.bool true) ∧
      pyRequestsNode.id =
        strCat "file://" (strCat (replaceDotSlash pyRequestsNode.name) ".py")) :=
  ⟨c9_virtual_import_placeholders.1 "file://app.js" []
      [("react", "import React from \x22react\x22")] jsReactNode (by decide) (by decide),
   c9_virtual_import_placeholders.2 "file://app.py" [] ["requests"] pyRequestsNode
      (by decide)⟩

end Jnkn
